import Mathlib

/-!
Verification of the shortcut_overlay repository.

The development shallowly embeds the Python modules
`scripts/config_manager.py`, `scripts/keyboard_handler.py`,
`scripts/foreground_monitor.py` and the state-tracking parts of
`scripts/overlay_keyboard.py`.

Python dictionaries are modelled as insertion-ordered association lists
(`Dict`), JSON values as the inductive `JSON`, Python sets of strings as
`Finset String`, and the ASCII fragment of Python string methods
(`upper`, `lower`, substring containment) as executable Lean functions.
File-system interaction and the Win32 / keyboard-library oracles are
modelled as explicit inputs (inductive file states, a `phys` predicate for
physically pressed keys).
-/

/-! ## Python dictionaries as insertion-ordered association lists -/

/-- A Python `dict` with `String` keys: an insertion-ordered association
list.  `json.load` and the configuration code only build dictionaries with
distinct keys. -/
abbrev Dict (V : Type) := List (String × V)

/-- Membership-respecting lookup, `d[k]` / `d.get(k)`. -/
def dlookup {V : Type} : Dict V → String → Option V
  | [], _ => none
  | (k0, v0) :: t, k => if k0 = k then some v0 else dlookup t k

/-- Python `k in d`. -/
def dcontains {V : Type} (d : Dict V) (k : String) : Bool :=
  (dlookup d k).isSome

/-- Python `d[k] = v`: overwrite in place if the key exists, otherwise
append at the end (insertion order). -/
def dinsert {V : Type} : Dict V → String → V → Dict V
  | [], k, v => [(k, v)]
  | (k0, v0) :: t, k, v =>
      if k0 = k then (k0, v) :: t else (k0, v0) :: dinsert t k v

/-- Python `del d[k]` (for the keys actually present): remove the first
entry with the given key. -/
def derase {V : Type} : Dict V → String → Dict V
  | [], _ => []
  | (k0, v0) :: t, k => if k0 = k then t else (k0, v0) :: derase t k

/-- Python `base.update(upd)`: assign every entry of `upd` into `base`
in order. -/
def dupdate {V : Type} (base upd : Dict V) : Dict V :=
  upd.foldl (fun acc p => dinsert acc p.1 p.2) base

/-! ## ASCII fragment of the Python string methods used by the code -/

/-- Python `str.upper()` on one ASCII character. -/
def pyCharUpper (c : Char) : Char :=
  if 97 ≤ c.toNat ∧ c.toNat ≤ 122 then Char.ofNat (c.toNat - 32) else c

/-- Python `str.lower()` on one ASCII character. -/
def pyCharLower (c : Char) : Char :=
  if 65 ≤ c.toNat ∧ c.toNat ≤ 90 then Char.ofNat (c.toNat + 32) else c

/-- Python `s.upper()` (ASCII fragment). -/
def pyUpper (s : String) : String := ⟨s.data.map pyCharUpper⟩

/-- Python `s.lower()` (ASCII fragment). -/
def pyLower (s : String) : String := ⟨s.data.map pyCharLower⟩

/-- Python `needle in hay` on strings: substring containment. -/
def strContains (hay needle : String) : Bool :=
  decide (needle.data <:+: hay.data)

/-- Python `str.title()` on a single word: first character uppercased,
the rest lowercased (only ever reached on dead branches here). -/
def pyTitle (s : String) : String :=
  match s.data with
  | [] => ⟨[]⟩
  | c :: t => ⟨pyCharUpper c :: t.map pyCharLower⟩

/-! ## JSON values -/

/-- A JSON value, as produced by `json.load`.  Numbers in the
configuration files are integers. -/
inductive JSON where
  | null
  | bool (b : Bool)
  | num (n : Int)
  | str (s : String)
  | arr (elems : List JSON)
  | obj (entries : List (String × JSON))

/-! ## ConfigManager (scripts/config_manager.py) -/

/-- `ConfigManager._get_default_settings`. -/
def get_default_settings : Dict JSON :=
  [ ("theme_name", .str "Default Dark"),
    ("opacity", .num 85),
    ("custom_bg_color", .str "#AA14141E"),
    ("custom_key_color", .str "#CC32323C"),
    ("custom_text_color", .str "#FFFFFFFF"),
    ("language", .str "en_US"),
    ("window_x", .null),
    ("window_y", .null),
    ("window_width", .num 850),
    ("window_height", .num 280) ]

/-- `ConfigManager._get_default_shortcuts_config`. -/
def get_default_shortcuts_config : Dict JSON :=
  [ ("NOTEPAD.EXE", .obj
      [ ("Ctrl", .obj
          [ ("S", .obj [("en", .str "Save File"), ("zh", .str "保存文件")]),
            ("O", .obj [("en", .str "Open File"), ("zh", .str "打开文件")]),
            ("N", .obj [("en", .str "New File"), ("zh", .str "新建文件")]) ]) ]),
    ("DEFAULT", .obj
      [ ("Ctrl", .obj
          [ ("C", .obj [("en", .str "Copy (Global)"), ("zh", .str "复制 (全局)")]),
            ("V", .obj [("en", .str "Paste (Global)"), ("zh", .str "粘贴 (全局)")]),
            ("X", .obj [("en", .str "Cut (Global)"), ("zh", .str "剪切 (全局)")]) ]),
        ("Alt", .obj
          [ ("F4", .obj [("en", .str "Close Window"), ("zh", .str "关闭窗口")]) ]) ]) ]

/-- State of the settings file as seen by `_load_or_create_settings`:
absent, unreadable / unparseable, or successfully parsed to a JSON
value. -/
inductive SettingsFileState where
  | missing
  | readError
  | parsed (v : JSON)

/-- The `for key, default_value in default_settings.items()` loop at the
end of `_load_or_create_settings`: add every default key that is still
absent. -/
def ensure_default_keys (defaults merged : Dict JSON) : Dict JSON :=
  defaults.foldl
    (fun acc p => if dcontains acc p.1 then acc else dinsert acc p.1 p.2)
    merged

/-- `ConfigManager._load_or_create_settings`, restricted to the value of
`self.app_settings` it computes (the write-back of the merged settings
does not affect that value).  Missing file, read/parse error, and a
non-object top level all leave `loaded_settings` empty; otherwise the
loaded entries are assigned over a copy of the defaults. -/
def load_or_create_settings (fs : SettingsFileState) : Dict JSON :=
  let default_settings := get_default_settings
  let loaded_settings : Dict JSON :=
    match fs with
    | .missing => []
    | .readError => []
    | .parsed v =>
        match v with
        | .obj entries => entries
        | _ => []
  let app_settings := dupdate default_settings loaded_settings
  ensure_default_keys default_settings app_settings

/-- `ConfigManager.get_shortcuts_for_app`. -/
def get_shortcuts_for_app (shortcuts_data : Dict JSON) (app_name : Option String) : JSON :=
  let app_key : String :=
    match app_name with
    | none => "DEFAULT"
    | some s => if s = "" then "DEFAULT" else pyUpper s
  match dlookup shortcuts_data app_key with
  | some app_specific_shortcuts => app_specific_shortcuts
  | none =>
      if app_key ≠ "DEFAULT" then (dlookup shortcuts_data "DEFAULT").getD (.obj [])
      else .obj []

/-- State of the shortcuts file as seen by `_load_or_create_shortcuts`.
When the file is missing, `write_fails` records whether the attempt to
save the default configuration raises. -/
inductive ShortcutsFileState where
  | missing (write_fails : Bool)
  | readError
  | parsed (v : JSON)

/-- The `json.dump` call inside `_create_default_shortcuts_config`. -/
def attempt_write_default_config (write_fails : Bool) : Except String Unit :=
  if write_fails then .error "IOError" else .ok ()

/-- `ConfigManager._create_default_shortcuts_config`: try to save the
default configuration; on success or failure alike, the in-memory
`shortcuts_data` becomes the default configuration. -/
def create_default_shortcuts_config (write_fails : Bool) : Dict JSON :=
  match attempt_write_default_config write_fails with
  | .ok _ => get_default_shortcuts_config
  | .error _ => get_default_shortcuts_config

/-- The `open` / `json.load` part of `_load_or_create_shortcuts`. -/
def read_and_parse_shortcuts : ShortcutsFileState → Except String JSON
  | .missing _ => .error "FileNotFoundError"
  | .readError => .error "JSONDecodeError"
  | .parsed v => .ok v

/-- `ConfigManager._load_or_create_shortcuts`.  The result is `.ok d`
when no exception escapes to the caller, carrying the final value of
`self.shortcuts_data`.  The `try` body parses the file and raises when
the top level is not an object; the `except` clause falls back to the
default configuration. -/
def load_or_create_shortcuts (fs : ShortcutsFileState) : Except String (Dict JSON) :=
  match fs with
  | .missing write_fails => .ok (create_default_shortcuts_config write_fails)
  | fs =>
      match (read_and_parse_shortcuts fs >>= fun loaded_data =>
              match loaded_data with
              | .obj entries => Except.ok entries
              | _ => Except.error "JSONDecodeError") with
      | .ok entries => .ok entries
      | .error _ => .ok get_default_shortcuts_config

/-! ### A small heap of dictionary objects, for the copying accessors

`get_all_settings` and `get_all_shortcuts` return `self.app_settings.copy()`
and `self.shortcuts_data.copy()`.  To state that mutating the returned
dictionary leaves the manager untouched, dictionaries live in a heap of
cells addressed by natural numbers; `.copy()` allocates a fresh cell with
the same top-level entries. -/

/-- A heap of Python dictionary objects. -/
structure Heap where
  cells : List (Dict JSON)

/-- Dereference a dictionary address. -/
def readH (h : Heap) (r : Nat) : Dict JSON :=
  h.cells.getD r []

/-- Overwrite the dictionary stored at an address. -/
def writeH (h : Heap) (r : Nat) (d : Dict JSON) : Heap :=
  ⟨h.cells.set r d⟩

/-- Allocate a fresh dictionary object; returns the new heap and the
fresh address. -/
def allocH (h : Heap) (d : Dict JSON) : Heap × Nat :=
  (⟨h.cells ++ [d]⟩, h.cells.length)

/-- The two dictionaries owned by a `ConfigManager` instance. -/
structure ConfigManagerRefs where
  settings_ref : Nat
  shortcuts_ref : Nat

/-- `ConfigManager.get_all_settings`: `return self.app_settings.copy()`. -/
def get_all_settings (h : Heap) (cm : ConfigManagerRefs) : Heap × Nat :=
  allocH h (readH h cm.settings_ref)

/-- `ConfigManager.get_all_shortcuts`: `return self.shortcuts_data.copy()`. -/
def get_all_shortcuts (h : Heap) (cm : ConfigManagerRefs) : Heap × Nat :=
  allocH h (readH h cm.shortcuts_ref)

/-- `ConfigManager.get_setting`: `return self.app_settings.get(key, default)`.
The heap is returned unchanged: the read does not mutate anything. -/
def get_setting (h : Heap) (cm : ConfigManagerRefs) (key : String) (default : JSON) :
    Heap × JSON :=
  (h, (dlookup (readH h cm.settings_ref) key).getD default)

/-- A caller mutating a dictionary it was handed: `d[k] = v`. -/
def dict_set_item (h : Heap) (r : Nat) (k : String) (v : JSON) : Heap :=
  writeH h r (dinsert (readH h r) k v)

/-- A caller mutating a dictionary it was handed: `del d[k]`. -/
def dict_del_item (h : Heap) (r : Nat) (k : String) : Heap :=
  writeH h r (derase (readH h r) k)

/-! ## KeyboardHandler (scripts/keyboard_handler.py) -/

/-- The value of `int(name_lower[1:])` for a run of ASCII digits. -/
def digitsToNat (ds : List Char) : Nat :=
  ds.foldl (fun a c => a * 10 + (c.toNat - 48)) 0

/-- The function-key clause of `_normalize_key_name`:
`name_lower.startswith("f") and len(name_lower) > 1 and
name_lower[1:].isdigit()`, returning `f"F{num}"` when `1 <= num <= 24`
and falling through otherwise. -/
def fkey_check (name_lower : String) : Option String :=
  match name_lower.data with
  | 'f' :: rest =>
      if rest.length > 0 ∧ rest.all Char.isDigit then
        let num := digitsToNat rest
        if 1 ≤ num ∧ num ≤ 24 then some ("F" ++ toString num) else none
      else none
  | _ => none

/-- The `special_keys_map` dictionary literal of `_normalize_key_name`. -/
def special_keys_map : Dict String :=
  [ ("escape", "Esc"), ("esc", "Esc"),
    ("space", "Space"), ("space bar", "Space"),
    ("enter", "Enter"), ("return", "Enter"),
    ("backspace", "Backspace"),
    ("caps lock", "Caps Lock"), ("capslock", "Caps Lock"),
    ("tab", "Tab"),
    ("delete", "Del"), ("del", "Del"),
    ("home", "Home"), ("end", "End"),
    ("page up", "PgUp"), ("pgup", "PgUp"),
    ("page down", "PgDn"), ("pgdn", "PgDn"),
    ("insert", "Ins"), ("ins", "Ins"),
    ("print screen", "PrtSc"), ("printscr", "PrtSc"),
    ("scroll lock", "ScrLk"), ("scrolllock", "ScrLk"),
    ("pause", "Pause"), ("pause break", "Pause"),
    ("up", "↑"), ("down", "↓"), ("left", "←"), ("right", "→"),
    ("menu", "Menu"), ("apps", "Menu"), ("application", "Menu"),
    ("decimal", "."), ("numpad decimal", "."),
    ("separator", ",") ]

/-- The `symbol_map` dictionary literal of `_normalize_key_name`. -/
def symbol_map : Dict String :=
  [ (";", ";"), (":", ":"), ("semicolon", ";"),
    ("=", "="), ("equals", "="),
    (",", ","), ("comma", ","),
    ("-", "-"), ("minus", "-"), ("subtract", "-"), ("hyphen", "-"),
    (".", "."), ("period", "."), ("dot", "."),
    ("/", "/"), ("slash", "/"), ("forward slash", "/"), ("divide", "/"),
    ("\x60", "\x60"), ("backtick", "\x60"), ("grave accent", "\x60"),
    ("[", "["), ("open bracket", "["), ("left bracket", "["),
    ("]", "]"), ("close bracket", "]"), ("right bracket", "]"),
    ("\\", "\\"), ("backslash", "\\"), ("back slash", "\\"),
    ("\x27", "\x27"), ("apostrophe", "\x27"), ("single quote", "\x27"),
    ("*", "*"), ("multiply", "*"), ("asterisk", "*"), ("numpad multiply", "*"),
    ("+", "+"), ("add", "+"), ("plus", "+"), ("numpad plus", "+") ]

/-- `KeyboardHandler._normalize_key_name`. -/
def normalize_key_name (name_from_lib : Option String) : Option String :=
  match name_from_lib with
  | none => none
  | some nm =>
      if nm = "" then none
      else
        let name_lower := pyLower nm
        if strContains name_lower "ctrl" then some "Ctrl"
        else if strContains name_lower "shift" then some "Shift"
        else if strContains name_lower "alt" then some "Alt"
        else if strContains name_lower "win" || strContains name_lower "cmd"
                || name_lower == "meta" then some "Win"
        else
          match fkey_check name_lower with
          | some fk => some fk
          | none =>
              match dlookup special_keys_map name_lower with
              | some v => some v
              | none =>
                  match dlookup symbol_map name_lower with
                  | some v => some v
                  | none =>
                      match name_lower.data with
                      | [c] =>
                          if c.isAlpha then some ⟨[pyCharUpper c]⟩
                          else some name_lower
                      | _ => some (pyUpper nm)

/-- `KeyboardHandler._get_modifier_base_name`. -/
def get_modifier_base_name (normalized_key : String) : Option String :=
  if normalized_key = "Ctrl" then some "ctrl"
  else if normalized_key = "Shift" then some "shift"
  else if normalized_key = "Alt" then some "alt"
  else if normalized_key = "Win" then some "win"
  else none

/-- The mutable state of a `KeyboardHandler`: the set of active logical
modifiers and the map from pressed normalized key names to their press
timestamps (milliseconds). -/
structure KHState where
  active_modifiers : Finset String
  pressed_keys : Dict Nat

/-- An event object from the `keyboard` library: a possibly missing
`name` and an `event_type` string (`keyboard.KEY_DOWN` is `"down"`). -/
structure KbdEvent where
  name : Option String
  event_type : String

/-- One callback invocation: the updated handler state, the
`key_event_signal` emissions and the `modifiers_changed` emissions, in
order. -/
structure CallbackResult where
  state : KHState
  key_events : List (String × String)
  mod_events : List (Finset String)

/-- The `keyboard.is_pressed` checks of the `"up"` branch of
`_key_event_callback`: is any physical variant of the modifier still
pressed?  `phys` is the oracle for `keyboard.is_pressed`. -/
def is_modifier_still_pressed (phys : String → Bool) (modifier_base : String) : Bool :=
  if modifier_base = "ctrl" then phys "left ctrl" || phys "right ctrl"
  else if modifier_base = "shift" then phys "left shift" || phys "right shift"
  else if modifier_base = "alt" then phys "left alt" || phys "alt gr" || phys "right alt"
  else if modifier_base = "win" then phys "left windows" || phys "right windows"
  else false

/-- `KeyboardHandler._key_event_callback`.  `now` is `time.time() * 1000`
at the moment of the event. -/
def key_event_callback (phys : String → Bool) (now : Nat) (st : KHState)
    (event : KbdEvent) : CallbackResult :=
  match event.name with
  | none => ⟨st, [], []⟩
  | some nm =>
      match normalize_key_name (some nm) with
      | none => ⟨st, [], []⟩
      | some normalized_key =>
          let event_type_str := if event.event_type = "down" then "down" else "up"
          let pressed_keys :=
            if event_type_str = "down" then
              (if dcontains st.pressed_keys normalized_key then st.pressed_keys
               else dinsert st.pressed_keys normalized_key now)
            else
              (if dcontains st.pressed_keys normalized_key then
                 derase st.pressed_keys normalized_key
               else st.pressed_keys)
          let key_events := [(normalized_key, event_type_str)]
          match get_modifier_base_name normalized_key with
          | none => ⟨⟨st.active_modifiers, pressed_keys⟩, key_events, []⟩
          | some modifier_base =>
              if event_type_str = "down" then
                if modifier_base ∈ st.active_modifiers then
                  ⟨⟨st.active_modifiers, pressed_keys⟩, key_events, []⟩
                else
                  ⟨⟨insert modifier_base st.active_modifiers, pressed_keys⟩,
                   key_events, [insert modifier_base st.active_modifiers]⟩
              else
                if modifier_base ∈ st.active_modifiers then
                  if is_modifier_still_pressed phys modifier_base then
                    ⟨⟨st.active_modifiers, pressed_keys⟩, key_events, []⟩
                  else
                    ⟨⟨st.active_modifiers.erase modifier_base, pressed_keys⟩,
                     key_events, [st.active_modifiers.erase modifier_base]⟩
                else ⟨⟨st.active_modifiers, pressed_keys⟩, key_events, []⟩

/-- `KeyboardHandler._simulate_key_release`. -/
def simulate_key_release (st : KHState) (key_name : String) : CallbackResult :=
  if dcontains st.pressed_keys key_name then
    let pressed_keys := derase st.pressed_keys key_name
    let key_events := [(key_name, "up")]
    match get_modifier_base_name key_name with
    | some modifier_base =>
        if modifier_base ∈ st.active_modifiers then
          ⟨⟨st.active_modifiers.erase modifier_base, pressed_keys⟩,
           key_events, [st.active_modifiers.erase modifier_base]⟩
        else ⟨⟨st.active_modifiers, pressed_keys⟩, key_events, []⟩
    | none => ⟨⟨st.active_modifiers, pressed_keys⟩, key_events, []⟩
  else ⟨st, [], []⟩

/-- The state-clearing tail of `KeyboardHandler.stop_listening`: both
containers are cleared and a final `modifiers_changed` with the empty
set is emitted. -/
def stop_listening (_st : KHState) : CallbackResult :=
  ⟨⟨∅, []⟩, [], [∅]⟩

/-! ## OverlayKeyboardWindow modifier bookkeeping (scripts/overlay_keyboard.py) -/

/-- The `modifier_mapping` literal of `on_modifiers_changed`. -/
def modifier_mapping : Dict String :=
  [("ctrl", "CTRL"), ("shift", "SHIFT"), ("alt", "ALT"), ("win", "WIN")]

/-- The set comprehension of `on_modifiers_changed`: the uppercase image
of the incoming lowercase modifier set, filtered through
`modifier_mapping`. -/
def uppercase_modifiers (modifiers_set_lower : Finset String) : Finset String :=
  (modifiers_set_lower.filter (fun m => dcontains modifier_mapping m = true)).image
    (fun m => (dlookup modifier_mapping m).getD "")

/-- `OverlayKeyboardWindow._get_current_modifier_string_for_config`,
as a function of `self.current_logical_modifiers`. -/
def get_current_modifier_string_for_config (current_logical_modifiers : Finset String) :
    Option String :=
  let s_lower := current_logical_modifiers.image pyLower
  if "ctrl" ∈ s_lower ∧ "shift" ∈ s_lower ∧ "alt" ∉ s_lower ∧ "win" ∉ s_lower then
    some "Ctrl+Shift"
  else if "ctrl" ∈ s_lower ∧ "alt" ∈ s_lower ∧ "shift" ∉ s_lower ∧ "win" ∉ s_lower then
    some "Ctrl+Alt"
  else if s_lower.card = 1 then
    match s_lower.sort (· ≤ ·) with
    | [m] =>
        if m = "ctrl" then some "Ctrl"
        else if m = "alt" then some "Alt"
        else if m = "shift" then some "Shift"
        else if m = "win" then some "Win"
        else some (pyTitle m)
    | _ => none
  else if s_lower = ∅ then none
  else
    let ordered_mods : List String :=
      (if "ctrl" ∈ s_lower then ["Ctrl"] else [])
        ++ (if "alt" ∈ s_lower then ["Alt"] else [])
        ++ (if "shift" ∈ s_lower then ["Shift"] else [])
        ++ (if "win" ∈ s_lower then ["Win"] else [])
    if ordered_mods ≠ [] then some (String.intercalate "+" ordered_mods) else none

/-! ## ForegroundMonitor (scripts/foreground_monitor.py) -/

/-- The outcome of one poll, as seen by `check_foreground_app`: either
`GetForegroundWindow` plus `get_exe_from_hwnd` produce an optional
executable name, or the windows call raises. -/
inductive ForegroundCheck where
  | ok (exe : Option String)
  | raises

/-- Python truthiness of the optional executable name: `None` and the
empty string are falsy. -/
def truthy : Option String → Bool
  | none => false
  | some s => if s = "" then false else true

/-- `ForegroundMonitor.check_foreground_app`: from the previously
recorded `current_app_name` and the poll outcome, the new recorded name
and the list of `active_app_changed` emissions. -/
def check_foreground_app (current_app_name : Option String) (res : ForegroundCheck) :
    Option String × List String :=
  match res with
  | .raises =>
      if current_app_name ≠ none then (none, ["DEFAULT"])
      else (current_app_name, [])
  | .ok new_app_name =>
      if truthy new_app_name ∧ new_app_name ≠ current_app_name then
        (new_app_name, [new_app_name.getD ""])
      else if ¬ truthy new_app_name ∧ current_app_name ≠ none then
        (none, ["DEFAULT"])
      else (current_app_name, [])

/-! ## Helper lemmas on the dictionary model -/

theorem dlookup_dinsert_self {V : Type} (d : Dict V) (k : String) (v : V) :
    dlookup (dinsert d k v) k = some v := by
  induction d with
  | nil => simp [dinsert, dlookup]
  | cons p t ih =>
      obtain ⟨k0, v0⟩ := p
      by_cases h : k0 = k
      · simp [dinsert, dlookup, h]
      · simp [dinsert, dlookup, h, ih]

theorem dlookup_dinsert_ne {V : Type} (d : Dict V) {k k' : String} (v : V)
    (h : k' ≠ k) : dlookup (dinsert d k v) k' = dlookup d k' := by
  induction d with
  | nil =>
      have hk : ¬ (k = k') := fun he => h he.symm
      simp [dinsert, dlookup, hk]
  | cons p t ih =>
      obtain ⟨k0, v0⟩ := p
      by_cases h0 : k0 = k
      · subst h0
        have hk : ¬ (k0 = k') := fun he => h he.symm
        simp [dinsert, dlookup, hk]
      · by_cases h1 : k0 = k'
        · subst h1
          simp [dinsert, dlookup, h0]
        · simp [dinsert, dlookup, h0, h1, ih]

theorem dlookup_eq_none_of_not_mem_keys {V : Type} {d : Dict V} {k : String}
    (h : k ∉ d.map Prod.fst) : dlookup d k = none := by
  induction d with
  | nil => rfl
  | cons p t ih =>
      obtain ⟨k0, v0⟩ := p
      simp only [List.map_cons, List.mem_cons, not_or] at h
      have hk : ¬ (k0 = k) := fun he => h.1 he.symm
      simp [dlookup, hk, ih h.2]

theorem dcontains_of_mem {V : Type} {d : Dict V} {p : String × V} (h : p ∈ d) :
    dcontains d p.1 = true := by
  induction d with
  | nil => cases h
  | cons q t ih =>
      obtain ⟨k0, v0⟩ := q
      rcases List.mem_cons.mp h with h | h
      · subst h; simp [dcontains, dlookup]
      · by_cases h0 : k0 = p.1
        · simp [dcontains, dlookup, h0]
        · simpa [dcontains, dlookup, h0] using ih h

theorem derase_dinsert {V : Type} (d : Dict V) (k : String) (v : V)
    (h : dcontains d k = false) : derase (dinsert d k v) k = d := by
  induction d with
  | nil => simp [dinsert, derase]
  | cons p t ih =>
      obtain ⟨k0, v0⟩ := p
      by_cases h0 : k0 = k
      · simp [dcontains, dlookup, h0] at h
      · simp [dcontains, dlookup, h0] at h
        have h' : dcontains t k = false := by simp [dcontains, h]
        simp [dinsert, derase, h0, ih h']

theorem dlookup_dupdate_of_none {V : Type} (d u : Dict V) (k : String)
    (h : dlookup u k = none) : dlookup (dupdate d u) k = dlookup d k := by
  induction u generalizing d with
  | nil => rfl
  | cons p t ih =>
      obtain ⟨k0, v0⟩ := p
      by_cases h0 : k0 = k
      · simp [dlookup, h0] at h
      · simp [dlookup, h0] at h
        rw [dupdate] at *
        simpa [dlookup_dinsert_ne d v0 (fun he => h0 he.symm)] using ih (dinsert d k0 v0) h

theorem dlookup_dupdate_of_some {V : Type} (d : Dict V) {u : Dict V} {k : String} {v : V}
    (hnd : (u.map Prod.fst).Nodup) (h : dlookup u k = some v) :
    dlookup (dupdate d u) k = some v := by
  induction u generalizing d with
  | nil => cases h
  | cons p t ih =>
      obtain ⟨k0, v0⟩ := p
      simp only [List.map_cons, List.nodup_cons] at hnd
      by_cases h0 : k0 = k
      · subst h0
        have hv : v0 = v := by simpa [dlookup] using h
        subst hv
        have hnone : dlookup t k0 = none :=
          dlookup_eq_none_of_not_mem_keys hnd.1
        calc dlookup (dupdate d ((k0, v0) :: t)) k0
            = dlookup (dupdate (dinsert d k0 v0) t) k0 := rfl
          _ = dlookup (dinsert d k0 v0) k0 := dlookup_dupdate_of_none _ _ _ hnone
          _ = some v0 := dlookup_dinsert_self _ _ _
      · have ht : dlookup t k = some v := by simpa [dlookup, h0] using h
        exact ih (dinsert d k0 v0) hnd.2 ht

theorem dcontains_dupdate_of_base {V : Type} (d u : Dict V) (k : String)
    (h : dcontains d k = true) : dcontains (dupdate d u) k = true := by
  induction u generalizing d with
  | nil => exact h
  | cons p t ih =>
      obtain ⟨k0, v0⟩ := p
      rw [dupdate]
      refine ih (dinsert d k0 v0) ?_
      by_cases h0 : k = k0
      · subst h0; simp [dcontains, dlookup_dinsert_self]
      · simpa [dcontains, dlookup_dinsert_ne d v0 h0] using h

theorem dcontains_dupdate_of_upd {V : Type} (d : Dict V) {u : Dict V} {k : String}
    (h : dcontains u k = true) : dcontains (dupdate d u) k = true := by
  induction u generalizing d with
  | nil => simp [dcontains, dlookup] at h
  | cons p t ih =>
      obtain ⟨k0, v0⟩ := p
      have step : dupdate d ((k0, v0) :: t) = dupdate (dinsert d k0 v0) t := rfl
      rw [step]
      by_cases h0 : k0 = k
      · subst h0
        by_cases ht : dcontains t k0 = true
        · exact ih (dinsert d k0 v0) ht
        · have hn : dlookup t k0 = none := by
            cases hl : dlookup t k0 with
            | none => rfl
            | some w => exact absurd (by simp [dcontains, hl]) ht
          simp [dcontains, dlookup_dupdate_of_none _ _ _ hn, dlookup_dinsert_self]
      · have ht : dcontains t k = true := by simpa [dcontains, dlookup, h0] using h
        exact ih (dinsert d k0 v0) ht

theorem ensure_default_keys_eq_self (defaults m : Dict JSON)
    (h : ∀ p ∈ defaults, dcontains m p.1 = true) :
    ensure_default_keys defaults m = m := by
  induction defaults generalizing m with
  | nil => rfl
  | cons p t ih =>
      have hc := h p (List.mem_cons_self p t)
      have step : ensure_default_keys (p :: t) m
          = ensure_default_keys t (if dcontains m p.1 then m else dinsert m p.1 p.2) := rfl
      rw [step, if_pos hc]
      exact ih m (fun q hq => h q (List.mem_cons_of_mem p hq))

theorem load_or_create_settings_parsed_obj (m : Dict JSON) :
    load_or_create_settings (.parsed (.obj m)) = dupdate get_default_settings m :=
  ensure_default_keys_eq_self _ _
    (fun _p hp => dcontains_dupdate_of_base _ _ _ (dcontains_of_mem hp))

theorem load_or_create_settings_default_cases :
    load_or_create_settings .missing = get_default_settings
    ∧ load_or_create_settings .readError = get_default_settings
    ∧ ∀ v : JSON, (∀ m, v ≠ .obj m) → load_or_create_settings (.parsed v) = get_default_settings := by
  have hself : ensure_default_keys get_default_settings (dupdate get_default_settings [])
      = dupdate get_default_settings [] :=
    ensure_default_keys_eq_self _ _
      (fun _p hp => dcontains_dupdate_of_base _ _ _ (dcontains_of_mem hp))
  refine ⟨?_, ?_, ?_⟩
  · exact hself
  · exact hself
  · intro v hv
    cases v with
    | obj m => exact absurd rfl (hv m)
    | null => exact hself
    | bool b => exact hself
    | num n => exact hself
    | str s => exact hself
    | arr es => exact hself

/-! ## String method lemmas -/

theorem pyCharUpper_idem (c : Char) : pyCharUpper (pyCharUpper c) = pyCharUpper c := by
  unfold pyCharUpper
  split
  · rename_i h
    obtain ⟨h1, h2⟩ := h
    set n := c.toNat with hn
    interval_cases n <;> decide
  · rfl

theorem pyUpper_idem (s : String) : pyUpper (pyUpper s) = pyUpper s := by
  unfold pyUpper
  refine congrArg String.mk ?_
  rw [List.map_map]
  exact List.map_congr_left (fun a _ => pyCharUpper_idem a)

theorem pyUpper_eq_empty_iff (s : String) : pyUpper s = "" ↔ s = "" := by
  cases s with
  | mk d =>
    cases d with
    | nil => exact ⟨fun _ => rfl, fun _ => rfl⟩
    | cons a t =>
      constructor
      · intro h
        exact absurd (congrArg String.data h) (by simp [pyUpper])
      · intro h
        exact absurd (congrArg String.data h) (by simp)

/-! ## Claim theorems for the ConfigManager -/

/-- C1: settings loading merges the loaded JSON object with the defaults.
Every default key is present in the result; loaded values win over default
values (for a loaded object with distinct keys, as produced by
`json.load`); default keys absent from the loaded object keep their
default value; keys only present in the loaded file are retained; and a
missing file, an unreadable or unparseable file, and a non-object top
level all yield exactly the default settings. -/
theorem c1_load_or_create_settings_merge :
    (∀ fs : SettingsFileState, ∀ k : String,
        dcontains get_default_settings k = true →
        dcontains (load_or_create_settings fs) k = true)
    ∧ (∀ (m : Dict JSON) (k : String) (v : JSON),
        (m.map Prod.fst).Nodup → dlookup m k = some v →
        dlookup (load_or_create_settings (.parsed (.obj m))) k = some v)
    ∧ (∀ (m : Dict JSON) (k : String),
        dlookup m k = none →
        dlookup (load_or_create_settings (.parsed (.obj m))) k
          = dlookup get_default_settings k)
    ∧ (∀ (m : Dict JSON) (k : String),
        dcontains m k = true →
        dcontains (load_or_create_settings (.parsed (.obj m))) k = true)
    ∧ (load_or_create_settings .missing = get_default_settings
        ∧ load_or_create_settings .readError = get_default_settings
        ∧ ∀ v : JSON, (∀ m, v ≠ .obj m) →
            load_or_create_settings (.parsed v) = get_default_settings) := by
  obtain ⟨hmiss, herr, hnonobj⟩ := load_or_create_settings_default_cases
  refine ⟨?_, ?_, ?_, ?_, hmiss, herr, hnonobj⟩
  · intro fs k hk
    cases fs with
    | missing => rw [hmiss]; exact hk
    | readError => rw [herr]; exact hk
    | parsed v =>
        cases v with
        | obj m =>
            rw [load_or_create_settings_parsed_obj]
            exact dcontains_dupdate_of_base _ _ _ hk
        | null => rw [hnonobj _ (fun m h => JSON.noConfusion h)]; exact hk
        | bool b => rw [hnonobj _ (fun m h => JSON.noConfusion h)]; exact hk
        | num n => rw [hnonobj _ (fun m h => JSON.noConfusion h)]; exact hk
        | str s => rw [hnonobj _ (fun m h => JSON.noConfusion h)]; exact hk
        | arr es => rw [hnonobj _ (fun m h => JSON.noConfusion h)]; exact hk
  · intro m k v hnd hv
    rw [load_or_create_settings_parsed_obj]
    exact dlookup_dupdate_of_some _ hnd hv
  · intro m k hk
    rw [load_or_create_settings_parsed_obj]
    exact dlookup_dupdate_of_none _ _ _ hk
  · intro m k hk
    rw [load_or_create_settings_parsed_obj]
    exact dcontains_dupdate_of_upd _ hk

/-- C1 witness: the theorem applied at a concrete loaded object that
overrides `opacity` and adds a new key. -/
theorem c1_witness :
    dlookup (load_or_create_settings
        (.parsed (.obj [("opacity", .num 50), ("extra", .str "x")]))) "opacity"
      = some (.num 50)
    ∧ dlookup (load_or_create_settings
        (.parsed (.obj [("opacity", .num 50), ("extra", .str "x")]))) "language"
      = dlookup get_default_settings "language"
    ∧ dcontains (load_or_create_settings
        (.parsed (.obj [("opacity", .num 50), ("extra", .str "x")]))) "extra" = true :=
  ⟨c1_load_or_create_settings_merge.2.1 _ "opacity" (.num 50) (by decide) (by rfl),
   c1_load_or_create_settings_merge.2.2.1 _ "language" (by rfl),
   c1_load_or_create_settings_merge.2.2.2.1 _ "extra" (by rfl)⟩

/-- C2: per-application shortcut lookup with fallback.  For a non-empty
application name whose uppercased form is a key, the stored entry is
returned; otherwise, when the uppercased name is not `"DEFAULT"`, the
`"DEFAULT"` entry (or the empty dict) is returned; a `None` or empty name
looks up `"DEFAULT"` directly, with the empty dict as fallback; and the
lookup is case-insensitive: `a` and `a.upper()` give the same result. -/
theorem c2_get_shortcuts_for_app_spec :
    (∀ (sd : Dict JSON) (a : String) (v : JSON), a ≠ "" →
        dlookup sd (pyUpper a) = some v → get_shortcuts_for_app sd (some a) = v)
    ∧ (∀ (sd : Dict JSON) (a : String), a ≠ "" →
        dlookup sd (pyUpper a) = none → pyUpper a ≠ "DEFAULT" →
        get_shortcuts_for_app sd (some a) = (dlookup sd "DEFAULT").getD (.obj []))
    ∧ (∀ sd : Dict JSON,
        get_shortcuts_for_app sd none = (dlookup sd "DEFAULT").getD (.obj [])
        ∧ get_shortcuts_for_app sd (some "") = (dlookup sd "DEFAULT").getD (.obj []))
    ∧ (∀ (sd : Dict JSON) (a : String),
        get_shortcuts_for_app sd (some a) = get_shortcuts_for_app sd (some (pyUpper a))) := by
  refine ⟨?_, ?_, ?_, ?_⟩
  · intro sd a v ha hv
    simp only [get_shortcuts_for_app, if_neg ha, hv]
  · intro sd a ha hnone hdef
    simp only [get_shortcuts_for_app, if_neg ha, hnone, ne_eq, hdef,
      not_false_iff, if_true]
  · intro sd
    constructor
    · simp only [get_shortcuts_for_app]
      cases hd : dlookup sd "DEFAULT" with
      | some v => simp [hd]
      | none => simp [hd]
    · simp only [get_shortcuts_for_app, if_pos rfl]
      cases hd : dlookup sd "DEFAULT" with
      | some v => simp [hd]
      | none => simp [hd]
  · intro sd a
    by_cases ha : a = ""
    · subst ha
      rfl
    · have hu : pyUpper a ≠ "" := fun he => ha ((pyUpper_eq_empty_iff a).mp he)
      simp only [get_shortcuts_for_app, if_neg ha, if_neg hu, pyUpper_idem]

/-- C2 witness: the theorem applied at a concrete shortcuts table. -/
theorem c2_witness :
    get_shortcuts_for_app [("NOTEPAD.EXE", .str "N"), ("DEFAULT", .str "D")]
        (some "notepad.exe") = .str "N"
    ∧ get_shortcuts_for_app [("NOTEPAD.EXE", .str "N"), ("DEFAULT", .str "D")]
        (some "word.exe") = (dlookup [("NOTEPAD.EXE", JSON.str "N"),
          ("DEFAULT", JSON.str "D")] "DEFAULT").getD (.obj []) :=
  ⟨c2_get_shortcuts_for_app_spec.1 _ "notepad.exe" (.str "N") (by decide) (by rfl),
   c2_get_shortcuts_for_app_spec.2.1 _ "word.exe" (by decide) (by rfl) (by decide)⟩

/-- C7: loading the shortcut configuration never lets an exception escape.
Every file state yields an `ok` result; a missing file yields the default
configuration whether or not the attempt to write it fails; a read or
parse error and a non-object top level yield the default configuration;
and a parsed object is installed as is.  In every case the resulting
`shortcuts_data` is a dictionary. -/
theorem c7_load_or_create_shortcuts_total :
    (∀ fs : ShortcutsFileState, ∃ d : Dict JSON, load_or_create_shortcuts fs = .ok d)
    ∧ (∀ write_fails : Bool,
        load_or_create_shortcuts (.missing write_fails) = .ok get_default_shortcuts_config)
    ∧ load_or_create_shortcuts .readError = .ok get_default_shortcuts_config
    ∧ (∀ v : JSON, (∀ m, v ≠ .obj m) →
        load_or_create_shortcuts (.parsed v) = .ok get_default_shortcuts_config)
    ∧ (∀ m : Dict JSON, load_or_create_shortcuts (.parsed (.obj m)) = .ok m) := by
  have hmiss : ∀ w : Bool,
      load_or_create_shortcuts (.missing w) = .ok get_default_shortcuts_config := by
    intro w
    cases w <;> rfl
  have hobj : ∀ m : Dict JSON, load_or_create_shortcuts (.parsed (.obj m)) = .ok m :=
    fun _m => rfl
  have hnonobj : ∀ v : JSON, (∀ m, v ≠ .obj m) →
      load_or_create_shortcuts (.parsed v) = .ok get_default_shortcuts_config := by
    intro v hv
    cases v with
    | obj m => exact absurd rfl (hv m)
    | null => rfl
    | bool b => rfl
    | num n => rfl
    | str s => rfl
    | arr es => rfl
  refine ⟨?_, hmiss, rfl, hnonobj, hobj⟩
  · intro fs
    cases fs with
    | missing w => exact ⟨get_default_shortcuts_config, hmiss w⟩
    | readError => exact ⟨get_default_shortcuts_config, rfl⟩
    | parsed v =>
        cases v with
        | obj m => exact ⟨m, hobj m⟩
        | null => exact ⟨get_default_shortcuts_config, rfl⟩
        | bool b => exact ⟨get_default_shortcuts_config, rfl⟩
        | num n => exact ⟨get_default_shortcuts_config, rfl⟩
        | str s => exact ⟨get_default_shortcuts_config, rfl⟩
        | arr es => exact ⟨get_default_shortcuts_config, rfl⟩

/-- C7 witness: the theorem applied at a parse error and at a non-object
top level. -/
theorem c7_witness :
    load_or_create_shortcuts (.parsed (.num 3)) = .ok get_default_shortcuts_config
    ∧ load_or_create_shortcuts (.missing true) = .ok get_default_shortcuts_config :=
  ⟨c7_load_or_create_shortcuts_total.2.2.2.1 (.num 3) (fun m h => JSON.noConfusion h),
   c7_load_or_create_shortcuts_total.2.1 true⟩

/-! ## Heap lemmas and the copying-accessor claim -/

theorem readH_writeH_ne (h : Heap) {r r' : Nat} (d : Dict JSON) (hne : r' ≠ r) :
    readH (writeH h r' d) r = readH h r := by
  simp [readH, writeH, List.getD, List.getElem?_set_ne hne]

theorem readH_allocH (h : Heap) (d : Dict JSON) {r : Nat} (hr : r < h.cells.length) :
    readH (allocH h d).1 r = readH h r := by
  simp [readH, allocH, List.getD, List.getElem?_append_left hr]

theorem readH_allocH_fresh (h : Heap) (d : Dict JSON) :
    readH (allocH h d).1 (allocH h d).2 = d := by
  simp [readH, allocH, List.getD, List.getElem?_append_right (le_refl h.cells.length)]

/-- C10: the copying accessors protect the manager state at the top level.
`get_all_settings` and `get_all_shortcuts` hand out a fresh dictionary
object with the same top-level entries, so inserting, replacing or
deleting a top-level entry in the returned dictionary leaves the
manager-owned dictionary unchanged; `get_setting` leaves the heap
untouched and returns the stored value, or the supplied default when the
key is absent. -/
theorem c10_accessor_copies :
    (∀ (h : Heap) (cm : ConfigManagerRefs), cm.settings_ref < h.cells.length →
        readH (get_all_settings h cm).1 (get_all_settings h cm).2
            = readH h cm.settings_ref
        ∧ (get_all_settings h cm).2 ≠ cm.settings_ref
        ∧ (∀ (k : String) (v : JSON),
            readH (dict_set_item (get_all_settings h cm).1 (get_all_settings h cm).2 k v)
                cm.settings_ref = readH h cm.settings_ref)
        ∧ (∀ k : String,
            readH (dict_del_item (get_all_settings h cm).1 (get_all_settings h cm).2 k)
                cm.settings_ref = readH h cm.settings_ref))
    ∧ (∀ (h : Heap) (cm : ConfigManagerRefs), cm.shortcuts_ref < h.cells.length →
        readH (get_all_shortcuts h cm).1 (get_all_shortcuts h cm).2
            = readH h cm.shortcuts_ref
        ∧ (get_all_shortcuts h cm).2 ≠ cm.shortcuts_ref
        ∧ (∀ (k : String) (v : JSON),
            readH (dict_set_item (get_all_shortcuts h cm).1 (get_all_shortcuts h cm).2 k v)
                cm.shortcuts_ref = readH h cm.shortcuts_ref)
        ∧ (∀ k : String,
            readH (dict_del_item (get_all_shortcuts h cm).1 (get_all_shortcuts h cm).2 k)
                cm.shortcuts_ref = readH h cm.shortcuts_ref))
    ∧ (∀ (h : Heap) (cm : ConfigManagerRefs) (key : String) (default : JSON),
        (get_setting h cm key default).1 = h
        ∧ (dlookup (readH h cm.settings_ref) key = none →
            (get_setting h cm key default).2 = default)
        ∧ (∀ v : JSON, dlookup (readH h cm.settings_ref) key = some v →
            (get_setting h cm key default).2 = v)) := by
  refine ⟨?_, ?_, ?_⟩
  · intro h cm hr
    have hfresh : (get_all_settings h cm).2 = h.cells.length := rfl
    have hne : (get_all_settings h cm).2 ≠ cm.settings_ref := by
      rw [hfresh]; omega
    refine ⟨readH_allocH_fresh h _, hne, ?_, ?_⟩
    · intro k v
      rw [dict_set_item, readH_writeH_ne _ _ hne]
      exact readH_allocH h _ hr
    · intro k
      rw [dict_del_item, readH_writeH_ne _ _ hne]
      exact readH_allocH h _ hr
  · intro h cm hr
    have hfresh : (get_all_shortcuts h cm).2 = h.cells.length := rfl
    have hne : (get_all_shortcuts h cm).2 ≠ cm.shortcuts_ref := by
      rw [hfresh]; omega
    refine ⟨readH_allocH_fresh h _, hne, ?_, ?_⟩
    · intro k v
      rw [dict_set_item, readH_writeH_ne _ _ hne]
      exact readH_allocH h _ hr
    · intro k
      rw [dict_del_item, readH_writeH_ne _ _ hne]
      exact readH_allocH h _ hr
  · intro h cm key default
    refine ⟨rfl, ?_, ?_⟩
    · intro hn
      simp [get_setting, hn]
    · intro v hv
      simp [get_setting, hv]

/-- C10 witness: a one-cell heap whose settings dictionary survives a
mutation of the copy returned by `get_all_settings`. -/
theorem c10_witness :
    readH (dict_set_item
        (get_all_settings ⟨[[("opacity", JSON.num 85)]]⟩ ⟨0, 0⟩).1
        (get_all_settings ⟨[[("opacity", JSON.num 85)]]⟩ ⟨0, 0⟩).2
        "opacity" (JSON.num 1))
      (0 : Nat) = readH ⟨[[("opacity", JSON.num 85)]]⟩ (0 : Nat) :=
  (c10_accessor_copies.1 ⟨[[("opacity", JSON.num 85)]]⟩ ⟨0, 0⟩
      (by decide)).2.2.1 "opacity" (JSON.num 1)

/-! ## Claim theorems for the KeyboardHandler -/

/-- C5: pressed-key bookkeeping and key-event signalling.  An event with
no name or an unnormalizable name leaves the state unchanged and emits
nothing.  Otherwise a `"down"` event records the key with its press
timestamp only when it is not already present (so auto-repeat keeps the
original press time), an `"up"` event removes the key when present, and
in both cases `key_event_signal` fires exactly once with the normalized
name and the event type. -/
theorem c5_key_event_callback_pressed :
    (∀ (phys : String → Bool) (now : Nat) (st : KHState) (et : String),
        key_event_callback phys now st ⟨none, et⟩ = ⟨st, [], []⟩)
    ∧ (∀ (phys : String → Bool) (now : Nat) (st : KHState) (nm et : String),
        normalize_key_name (some nm) = none →
        key_event_callback phys now st ⟨some nm, et⟩ = ⟨st, [], []⟩)
    ∧ (∀ (phys : String → Bool) (now : Nat) (st : KHState) (nm k : String),
        normalize_key_name (some nm) = some k →
        dcontains st.pressed_keys k = false →
        (key_event_callback phys now st ⟨some nm, "down"⟩).state.pressed_keys
            = dinsert st.pressed_keys k now
        ∧ dlookup (key_event_callback phys now st ⟨some nm, "down"⟩).state.pressed_keys k
            = some now)
    ∧ (∀ (phys : String → Bool) (now : Nat) (st : KHState) (nm k : String),
        normalize_key_name (some nm) = some k →
        dcontains st.pressed_keys k = true →
        (key_event_callback phys now st ⟨some nm, "down"⟩).state.pressed_keys
            = st.pressed_keys)
    ∧ (∀ (phys : String → Bool) (now : Nat) (st : KHState) (nm et k : String),
        normalize_key_name (some nm) = some k → et ≠ "down" →
        (dcontains st.pressed_keys k = true →
            (key_event_callback phys now st ⟨some nm, et⟩).state.pressed_keys
              = derase st.pressed_keys k)
        ∧ (dcontains st.pressed_keys k = false →
            (key_event_callback phys now st ⟨some nm, et⟩).state.pressed_keys
              = st.pressed_keys))
    ∧ (∀ (phys : String → Bool) (now : Nat) (st : KHState) (nm et k : String),
        normalize_key_name (some nm) = some k →
        (key_event_callback phys now st ⟨some nm, et⟩).key_events
            = [(k, if et = "down" then "down" else "up")]) := by
  refine ⟨?_, ?_, ?_, ?_, ?_, ?_⟩
  · intro phys now st et
    rfl
  · intro phys now st nm et hn
    simp only [key_event_callback, hn]
  · intro phys now st nm k hn hc
    constructor
    · simp only [key_event_callback, hn, if_pos rfl, hc, Bool.false_eq_true, if_false]
      cases hmb : get_modifier_base_name k with
      | none => rfl
      | some mb => by_cases hmem : mb ∈ st.active_modifiers <;> simp [hmem]
    · simp only [key_event_callback, hn, if_pos rfl, hc, Bool.false_eq_true, if_false]
      cases hmb : get_modifier_base_name k with
      | none => simp [dlookup_dinsert_self]
      | some mb =>
          by_cases hmem : mb ∈ st.active_modifiers <;>
            simp [hmem, dlookup_dinsert_self]
  · intro phys now st nm k hn hc
    simp only [key_event_callback, hn, if_pos rfl, hc, if_true]
    cases hmb : get_modifier_base_name k with
    | none => rfl
    | some mb => by_cases hmem : mb ∈ st.active_modifiers <;> simp [hmem]
  · intro phys now st nm et k hn het
    constructor
    · intro hc
      simp only [key_event_callback, hn, if_neg het, hc, if_true]
      cases hmb : get_modifier_base_name k with
      | none => rfl
      | some mb =>
          by_cases hmem : mb ∈ st.active_modifiers
          · by_cases hsp : is_modifier_still_pressed phys mb <;> simp [hmem, hsp]
          · simp [hmem]
    · intro hc
      simp only [key_event_callback, hn, if_neg het, hc, Bool.false_eq_true, if_false]
      cases hmb : get_modifier_base_name k with
      | none => rfl
      | some mb =>
          by_cases hmem : mb ∈ st.active_modifiers
          · by_cases hsp : is_modifier_still_pressed phys mb <;> simp [hmem, hsp]
          · simp [hmem]
  · intro phys now st nm et k hn
    by_cases het : et = "down"
    · subst het
      simp only [key_event_callback, hn, if_pos rfl]
      cases hmb : get_modifier_base_name k with
      | none => rfl
      | some mb => by_cases hmem : mb ∈ st.active_modifiers <;> simp [hmem]
    · simp only [key_event_callback, hn, if_neg het]
      cases hmb : get_modifier_base_name k with
      | none => rfl
      | some mb =>
          by_cases hmem : mb ∈ st.active_modifiers
          · by_cases hsp : is_modifier_still_pressed phys mb <;> simp [hmem, hsp]
          · simp [hmem]

/-- C5 witness: a concrete down event for the A key on an empty state. -/
theorem c5_witness :
    (key_event_callback (fun _ => false) 1000 ⟨∅, []⟩ ⟨some "a", "down"⟩).state.pressed_keys
        = dinsert [] "A" 1000
    ∧ (key_event_callback (fun _ => false) 1000 ⟨∅, []⟩ ⟨some "a", "down"⟩).key_events
        = [("A", "down")] :=
  ⟨((c5_key_event_callback_pressed.2.2.1 (fun _ => false) 1000 ⟨∅, []⟩ "a" "A"
      (by decide) (by rfl)).1),
   (by
      have := c5_key_event_callback_pressed.2.2.2.2.2 (fun _ => false) 1000 ⟨∅, []⟩
        "a" "down" "A" (by decide)
      simpa using this)⟩

theorem key_event_callback_pressed_eq (phys : String → Bool) (now : Nat) (st : KHState)
    (nm et k : String) (hn : normalize_key_name (some nm) = some k) :
    (key_event_callback phys now st ⟨some nm, et⟩).state.pressed_keys
      = if et = "down" then
          (if dcontains st.pressed_keys k then st.pressed_keys
           else dinsert st.pressed_keys k now)
        else
          (if dcontains st.pressed_keys k then derase st.pressed_keys k
           else st.pressed_keys) := by
  by_cases het : et = "down"
  · subst het
    simp only [key_event_callback, hn, if_pos rfl]
    cases hmb : get_modifier_base_name k with
    | none => rfl
    | some mb => by_cases hmem : mb ∈ st.active_modifiers <;> simp [hmem]
  · simp only [key_event_callback, hn, if_neg het]
    cases hmb : get_modifier_base_name k with
    | none => rfl
    | some mb =>
        by_cases hmem : mb ∈ st.active_modifiers
        · by_cases hsp : is_modifier_still_pressed phys mb <;> simp [hmem, hsp, het]
        · simp [hmem, het]

theorem key_event_callback_active_nonmod (phys : String → Bool) (now : Nat) (st : KHState)
    (nm et k : String) (hn : normalize_key_name (some nm) = some k)
    (hmb : get_modifier_base_name k = none) :
    (key_event_callback phys now st ⟨some nm, et⟩).state.active_modifiers
      = st.active_modifiers := by
  by_cases het : et = "down"
  · subst het
    simp only [key_event_callback, hn, if_pos rfl, hmb]
  · simp only [key_event_callback, hn, if_neg het, hmb]

/-- C8: a down event for a key that is not currently recorded as pressed,
immediately followed by an up event for the same key, restores the
pressed-key map; and when the key is not a modifier the active-modifier
set is unchanged by the pair as well. -/
theorem c8_down_up_round_trip :
    ∀ (phys phys2 : String → Bool) (t1 t2 : Nat) (st : KHState) (nm k : String),
      normalize_key_name (some nm) = some k →
      dcontains st.pressed_keys k = false →
      ((key_event_callback phys2 t2
          (key_event_callback phys t1 st ⟨some nm, "down"⟩).state
          ⟨some nm, "up"⟩).state.pressed_keys = st.pressed_keys)
      ∧ (get_modifier_base_name k = none →
          (key_event_callback phys2 t2
            (key_event_callback phys t1 st ⟨some nm, "down"⟩).state
            ⟨some nm, "up"⟩).state.active_modifiers = st.active_modifiers) := by
  intro phys phys2 t1 t2 st nm k hn hc
  have h1p : (key_event_callback phys t1 st ⟨some nm, "down"⟩).state.pressed_keys
      = dinsert st.pressed_keys k t1 := by
    rw [key_event_callback_pressed_eq phys t1 st nm "down" k hn]
    simp [hc]
  have hc1 : dcontains
      (key_event_callback phys t1 st ⟨some nm, "down"⟩).state.pressed_keys k = true := by
    rw [h1p]
    simp [dcontains, dlookup_dinsert_self]
  constructor
  · rw [key_event_callback_pressed_eq phys2 t2 _ nm "up" k hn]
    simp only [hc1, if_true, if_neg (by decide : ¬ ("up" = "down"))]
    rw [h1p]
    exact derase_dinsert _ _ _ hc
  · intro hmb
    rw [key_event_callback_active_nonmod phys2 t2 _ nm "up" k hn hmb,
        key_event_callback_active_nonmod phys t1 st nm "down" k hn hmb]

/-- C8 witness: pressing and releasing the A key on a state that already
holds another pressed key. -/
theorem c8_witness :
    (key_event_callback (fun _ => false) 7
        (key_event_callback (fun _ => false) 3 ⟨∅, [("B", 1)]⟩ ⟨some "a", "down"⟩).state
        ⟨some "a", "up"⟩).state.pressed_keys = [("B", 1)]
    ∧ (key_event_callback (fun _ => false) 7
        (key_event_callback (fun _ => false) 3 ⟨∅, [("B", 1)]⟩ ⟨some "a", "down"⟩).state
        ⟨some "a", "up"⟩).state.active_modifiers = ∅ :=
  ⟨(c8_down_up_round_trip (fun _ => false) (fun _ => false) 3 7 ⟨∅, [("B", 1)]⟩
      "a" "A" (by decide) (by decide)).1,
   (c8_down_up_round_trip (fun _ => false) (fun _ => false) 3 7 ⟨∅, [("B", 1)]⟩
      "a" "A" (by decide) (by decide)).2 (by decide)⟩

/-- C3: logical modifier tracking.  For an event whose name normalizes to
a modifier key, a down event inserts the lowercase base name into the
active set when absent; an up event removes it only when no physical
variant of the modifier is still reported pressed; and
`modifiers_changed` fires, with the new set, exactly when the set
actually changed. -/
theorem c3_modifier_tracking :
    ∀ (phys : String → Bool) (now : Nat) (st : KHState) (nm et k mb : String),
      normalize_key_name (some nm) = some k →
      get_modifier_base_name k = some mb →
      ((et = "down" → mb ∉ st.active_modifiers →
          (key_event_callback phys now st ⟨some nm, et⟩).state.active_modifiers
              = insert mb st.active_modifiers
          ∧ (key_event_callback phys now st ⟨some nm, et⟩).mod_events
              = [insert mb st.active_modifiers])
      ∧ (et = "down" → mb ∈ st.active_modifiers →
          (key_event_callback phys now st ⟨some nm, et⟩).state.active_modifiers
              = st.active_modifiers
          ∧ (key_event_callback phys now st ⟨some nm, et⟩).mod_events = [])
      ∧ (et ≠ "down" → mb ∈ st.active_modifiers →
          is_modifier_still_pressed phys mb = false →
          (key_event_callback phys now st ⟨some nm, et⟩).state.active_modifiers
              = st.active_modifiers.erase mb
          ∧ (key_event_callback phys now st ⟨some nm, et⟩).mod_events
              = [st.active_modifiers.erase mb])
      ∧ (et ≠ "down" → mb ∈ st.active_modifiers →
          is_modifier_still_pressed phys mb = true →
          (key_event_callback phys now st ⟨some nm, et⟩).state.active_modifiers
              = st.active_modifiers
          ∧ (key_event_callback phys now st ⟨some nm, et⟩).mod_events = [])
      ∧ (et ≠ "down" → mb ∉ st.active_modifiers →
          (key_event_callback phys now st ⟨some nm, et⟩).state.active_modifiers
              = st.active_modifiers
          ∧ (key_event_callback phys now st ⟨some nm, et⟩).mod_events = [])
      ∧ ((key_event_callback phys now st ⟨some nm, et⟩).mod_events ≠ []
            ↔ (key_event_callback phys now st ⟨some nm, et⟩).state.active_modifiers
                ≠ st.active_modifiers)
      ∧ (∀ s ∈ (key_event_callback phys now st ⟨some nm, et⟩).mod_events,
            s = (key_event_callback phys now st ⟨some nm, et⟩).state.active_modifiers)) := by
  intro phys now st nm et k mb hn hmb
  refine ⟨?_, ?_, ?_, ?_, ?_, ?_, ?_⟩
  · intro het hmem
    subst het
    simp only [key_event_callback, hn, hmb, if_pos rfl]
    simp [hmem]
  · intro het hmem
    subst het
    simp only [key_event_callback, hn, hmb, if_pos rfl]
    simp [hmem]
  · intro het hmem hsp
    simp only [key_event_callback, hn, hmb, if_neg het]
    simp [hmem, hsp]
  · intro het hmem hsp
    simp only [key_event_callback, hn, hmb, if_neg het]
    simp [hmem, hsp]
  · intro het hmem
    simp only [key_event_callback, hn, hmb, if_neg het]
    simp [hmem]
  · by_cases het : et = "down"
    · subst het
      simp only [key_event_callback, hn, hmb, if_pos rfl]
      by_cases hmem : mb ∈ st.active_modifiers
      · simp [hmem]
      · simp only [hmem, if_false, if_neg hmem]
        simp [Finset.insert_eq_self, hmem]
    · simp only [key_event_callback, hn, hmb, if_neg het]
      by_cases hmem : mb ∈ st.active_modifiers
      · by_cases hsp : is_modifier_still_pressed phys mb
        · simp [hmem, hsp]
        · simp [hmem, hsp, Finset.erase_eq_self]
      · simp [hmem]
  · intro s hs
    by_cases het : et = "down"
    · subst het
      simp only [key_event_callback, hn, hmb, if_pos rfl] at hs ⊢
      by_cases hmem : mb ∈ st.active_modifiers
      · simp [hmem] at hs
      · simp [hmem] at hs ⊢
        exact hs
    · simp only [key_event_callback, hn, hmb, if_neg het] at hs ⊢
      by_cases hmem : mb ∈ st.active_modifiers
      · by_cases hsp : is_modifier_still_pressed phys mb
        · simp [hmem, hsp] at hs
        · simp [hmem, hsp] at hs ⊢
          exact hs
      · simp [hmem] at hs

/-- C3 witness: pressing left ctrl on an empty modifier set inserts
`"ctrl"` and emits the new set; releasing it with no physical variant
held removes it again. -/
theorem c3_witness :
    (key_event_callback (fun _ => false) 5 ⟨∅, []⟩
        ⟨some "left ctrl", "down"⟩).state.active_modifiers
        = insert "ctrl" (∅ : Finset String)
    ∧ (key_event_callback (fun _ => false) 5 ⟨∅, []⟩
        ⟨some "left ctrl", "down"⟩).mod_events
        = [insert "ctrl" (∅ : Finset String)]
    ∧ (key_event_callback (fun _ => false) 9 ⟨{"ctrl"}, [("Ctrl", 5)]⟩
        ⟨some "left ctrl", "up"⟩).state.active_modifiers
        = ({"ctrl"} : Finset String).erase "ctrl" :=
  ⟨((c3_modifier_tracking (fun _ => false) 5 ⟨∅, []⟩ "left ctrl" "down" "Ctrl" "ctrl"
      (by decide) (by decide)).1 rfl (by decide)).1,
   ((c3_modifier_tracking (fun _ => false) 5 ⟨∅, []⟩ "left ctrl" "down" "Ctrl" "ctrl"
      (by decide) (by decide)).1 rfl (by decide)).2,
   ((c3_modifier_tracking (fun _ => false) 9 ⟨{"ctrl"}, [("Ctrl", 5)]⟩
      "left ctrl" "up" "Ctrl" "ctrl" (by decide) (by decide)).2.2.1
      (by decide) (by decide) (by rfl)).1⟩

theorem get_modifier_base_name_mem {k mb : String}
    (h : get_modifier_base_name k = some mb) :
    mb ∈ ({"ctrl", "shift", "alt", "win"} : Finset String) := by
  unfold get_modifier_base_name at h
  split_ifs at h <;> simp_all

theorem gcms_ne_none_of_nonempty (s : Finset String)
    (hs : s ⊆ {"CTRL", "SHIFT", "ALT", "WIN"}) (hne : s.Nonempty) :
    get_current_modifier_string_for_config s ≠ none := by
  unfold get_current_modifier_string_for_config
  dsimp only
  have htsub : s.image pyLower ⊆ ({"ctrl", "shift", "alt", "win"} : Finset String) := by
    intro x hx
    simp only [Finset.mem_image] at hx
    obtain ⟨y, hy, hxy⟩ := hx
    have hy4 := hs hy
    simp only [Finset.mem_insert, Finset.mem_singleton] at hy4
    rcases hy4 with h | h | h | h <;> subst h <;> rw [← hxy] <;> decide
  have htne : (s.image pyLower).Nonempty := hne.image _
  split_ifs <;>
    first
      | exact Option.some_ne_none _
      | (exfalso
         rename_i hempty
         exact (Finset.nonempty_iff_ne_empty.mp htne) hempty)
      | (rename_i hcon
         apply absurd hcon
         simp
         done)
      | (exfalso
         obtain ⟨m, hm⟩ := htne
         have hm4 := htsub hm
         simp only [Finset.mem_insert, Finset.mem_singleton] at hm4
         rcases hm4 with h | h | h | h <;> subst h <;> contradiction)
      | (rename_i hcard
         have hlen : ((Finset.image pyLower s).sort (· ≤ ·)).length = 1 := by
           rw [Finset.length_sort]
           exact hcard
         cases hsort : (Finset.image pyLower s).sort (· ≤ ·) with
         | nil => rw [hsort] at hlen; cases hlen
         | cons m tl =>
             cases tl with
             | nil =>
                 dsimp only
                 split_ifs <;> exact Option.some_ne_none _
             | cons b tl2 => rw [hsort] at hlen; simp at hlen)

/-- C9: the modifier-set invariant.  Every mutating operation of the
keyboard handler keeps the active-modifier set inside
`{"ctrl", "shift", "alt", "win"}`; consequently the uppercase set
computed by `on_modifiers_changed` is always inside
`{"CTRL", "SHIFT", "ALT", "WIN"}`; and on such sets
`_get_current_modifier_string_for_config` returns `None` exactly when
the set is empty. -/
theorem c9_modifier_set_invariant :
    (∀ (phys : String → Bool) (now : Nat) (st : KHState) (ev : KbdEvent),
        st.active_modifiers ⊆ {"ctrl", "shift", "alt", "win"} →
        (key_event_callback phys now st ev).state.active_modifiers
          ⊆ {"ctrl", "shift", "alt", "win"})
    ∧ (∀ (st : KHState) (key_name : String),
        st.active_modifiers ⊆ {"ctrl", "shift", "alt", "win"} →
        (simulate_key_release st key_name).state.active_modifiers
          ⊆ {"ctrl", "shift", "alt", "win"})
    ∧ (∀ st : KHState,
        (stop_listening st).state.active_modifiers ⊆ {"ctrl", "shift", "alt", "win"})
    ∧ (∀ s : Finset String, uppercase_modifiers s ⊆ {"CTRL", "SHIFT", "ALT", "WIN"})
    ∧ (∀ s : Finset String, s ⊆ {"CTRL", "SHIFT", "ALT", "WIN"} →
        (get_current_modifier_string_for_config s = none ↔ s = ∅)) := by
  refine ⟨?_, ?_, ?_, ?_, ?_⟩
  · intro phys now st ev hsub
    obtain ⟨name, et⟩ := ev
    cases name with
    | none => exact hsub
    | some nm =>
        cases hn : normalize_key_name (some nm) with
        | none =>
            simp only [key_event_callback, hn]
            exact hsub
        | some k =>
            cases hmb : get_modifier_base_name k with
            | none =>
                rw [key_event_callback_active_nonmod phys now st nm et k hn hmb]
                exact hsub
            | some mb =>
                have hm4 := get_modifier_base_name_mem hmb
                by_cases het : et = "down"
                · subst het
                  simp only [key_event_callback, hn, hmb, if_pos rfl]
                  by_cases hmem : mb ∈ st.active_modifiers
                  · simpa [hmem] using hsub
                  · simp only [hmem, if_false, if_neg hmem]
                    exact Finset.insert_subset_iff.mpr ⟨hm4, hsub⟩
                · simp only [key_event_callback, hn, hmb, if_neg het]
                  by_cases hmem : mb ∈ st.active_modifiers
                  · by_cases hsp : is_modifier_still_pressed phys mb
                    · simpa [hmem, hsp] using hsub
                    · simp only [hmem, hsp, if_true, if_false, Bool.false_eq_true]
                      exact (Finset.erase_subset mb st.active_modifiers).trans hsub
                  · simpa [hmem] using hsub
  · intro st key_name hsub
    unfold simulate_key_release
    by_cases hc : dcontains st.pressed_keys key_name
    · simp only [hc, if_true]
      cases hmb : get_modifier_base_name key_name with
      | none => exact hsub
      | some mb =>
          by_cases hmem : mb ∈ st.active_modifiers
          · simp only [hmem, if_true]
            exact (Finset.erase_subset mb st.active_modifiers).trans hsub
          · simp only [hmem, if_false]
            exact hsub
    · simp only [hc, Bool.false_eq_true, if_false]
      exact hsub
  · intro st
    simp [stop_listening]
  · intro s
    intro x hx
    simp only [uppercase_modifiers, Finset.mem_image, Finset.mem_filter] at hx
    obtain ⟨m, ⟨hm, hmap⟩, hval⟩ := hx
    have hcases : m = "ctrl" ∨ m = "shift" ∨ m = "alt" ∨ m = "win" := by
      by_contra hcon
      push_neg at hcon
      obtain ⟨h1, h2, h3, h4⟩ := hcon
      simp [modifier_mapping, dcontains, dlookup,
        Ne.symm h1, Ne.symm h2, Ne.symm h3, Ne.symm h4] at hmap
    rcases hcases with h | h | h | h <;> subst h <;> rw [← hval] <;> decide
  · intro s hs
    constructor
    · intro hnone
      by_contra hne
      exact gcms_ne_none_of_nonempty s hs
        (Finset.nonempty_iff_ne_empty.mpr hne) hnone
    · intro he
      subst he
      simp [get_current_modifier_string_for_config]

/-- C9 witness: a concrete state exercising the callback preservation and
the empty-set characterisation. -/
theorem c9_witness :
    (key_event_callback (fun _ => false) 2 ⟨{"ctrl"}, []⟩
        ⟨some "left shift", "down"⟩).state.active_modifiers
      ⊆ {"ctrl", "shift", "alt", "win"}
    ∧ (get_current_modifier_string_for_config {"CTRL", "SHIFT"} = none
        ↔ ({"CTRL", "SHIFT"} : Finset String) = ∅) :=
  ⟨c9_modifier_set_invariant.1 (fun _ => false) 2 ⟨{"ctrl"}, []⟩
      ⟨some "left shift", "down"⟩ (by decide),
   c9_modifier_set_invariant.2.2.2.2 {"CTRL", "SHIFT"} (by decide)⟩

/-! ## Claim theorems for the ForegroundMonitor -/

/-- C6 counterexample: the claim says the newly identified name is
emitted exactly when it is non-`None` and differs from the recorded name.
With recorded name `"APP.EXE"` and identified name `""` (non-`None` and
different), the code instead treats the empty string as falsy, emits
`"DEFAULT"` and clears the recorded name. -/
theorem c6_counterexample :
    (some "" : Option String) ≠ none
    ∧ (some "" : Option String) ≠ some "APP.EXE"
    ∧ check_foreground_app (some "APP.EXE") (.ok (some "")) = (none, ["DEFAULT"])
    ∧ (check_foreground_app (some "APP.EXE") (.ok (some ""))).2 ≠ [""] := by
  refine ⟨by decide, by decide, by rfl, by decide⟩

/-- C6 (amended): `check_foreground_app` emits the newly identified
executable name exactly when it is non-`None`, non-empty and differs from
the previously recorded name (updating the record); it emits `"DEFAULT"`
exactly when the identified name is `None` or empty (or the check raises)
while a name was recorded, clearing the record; it emits nothing
otherwise; and a repeat of the same poll outcome never emits a second
signal. -/
theorem c6_check_foreground_app_amended :
    (∀ (st : Option String) (new : Option String),
        truthy new = true → new ≠ st →
        check_foreground_app st (.ok new) = (new, [new.getD ""]))
    ∧ (∀ (st : Option String) (new : Option String),
        truthy new = true → new = st →
        check_foreground_app st (.ok new) = (st, []))
    ∧ (∀ (st : Option String) (new : Option String),
        truthy new = false → st ≠ none →
        check_foreground_app st (.ok new) = (none, ["DEFAULT"]))
    ∧ (∀ new : Option String, truthy new = false →
        check_foreground_app none (.ok new) = (none, []))
    ∧ (∀ st : Option String, st ≠ none →
        check_foreground_app st .raises = (none, ["DEFAULT"]))
    ∧ check_foreground_app none .raises = (none, [])
    ∧ (∀ (st : Option String) (res : ForegroundCheck),
        (check_foreground_app (check_foreground_app st res).1 res).2 = []) := by
  refine ⟨?_, ?_, ?_, ?_, ?_, ?_, ?_⟩
  · intro st new ht hne
    simp [check_foreground_app, ht, hne]
  · intro st new ht he
    subst he
    simp [check_foreground_app, ht]
  · intro st new ht hne
    simp [check_foreground_app, ht, hne]
  · intro new ht
    simp [check_foreground_app, ht]
  · intro st hne
    simp [check_foreground_app, hne]
  · rfl
  · intro st res
    cases res with
    | raises =>
        by_cases hst : st = none
        · subst hst
          rfl
        · simp [check_foreground_app, hst]
    | ok new =>
        by_cases ht : truthy new = true
        · by_cases hne : new ≠ st
          · simp [check_foreground_app, ht, hne]
          · rw [not_not] at hne
            subst hne
            by_cases hn : new = none
            · subst hn
              cases ht
            · simp [check_foreground_app, ht, hn]
        · have ht' : truthy new = false := by
            cases h : truthy new
            · rfl
            · exact absurd h ht
          by_cases hst : st = none
          · subst hst
            simp [check_foreground_app, ht']
          · simp [check_foreground_app, ht', hst]

/-- C6 witness: a new application comes to the foreground and is emitted
once; polling the same outcome again emits nothing. -/
theorem c6_witness :
    check_foreground_app none (.ok (some "NOTEPAD.EXE"))
        = (some "NOTEPAD.EXE", ["NOTEPAD.EXE"])
    ∧ (check_foreground_app
        (check_foreground_app none (.ok (some "NOTEPAD.EXE"))).1
        (.ok (some "NOTEPAD.EXE"))).2 = [] :=
  ⟨c6_check_foreground_app_amended.1 none (some "NOTEPAD.EXE") (by decide) (by decide),
   c6_check_foreground_app_amended.2.2.2.2.2.2 none (.ok (some "NOTEPAD.EXE"))⟩

/-! ## Lemmas for the key-name normalization claim -/

theorem strContains_eq_false_of_not_mem {hay needle : String} {a : Char}
    (h : a ∈ needle.data) (h2 : a ∉ hay.data) : strContains hay needle = false := by
  simp only [strContains, decide_eq_false_iff_not]
  exact fun hinf => h2 (hinf.subset h)

theorem not_mem_fdigit {t : List Char} (ht : t.all Char.isDigit = true) {a : Char}
    (ha : Char.isDigit a = false) (haf : a ≠ 'f') : a ∉ 'f' :: t := by
  intro hm
  rcases List.mem_cons.mp hm with h | h
  · exact haf h
  · rw [List.all_eq_true] at ht
    rw [ht a h] at ha
    cases ha

theorem mk_ne_of_head_ne {c d : Char} {t u : List Char} (h : c ≠ d) :
    (⟨c :: t⟩ : String) ≠ ⟨d :: u⟩ := by
  intro he
  have hd := congrArg String.data he
  injection hd with h1 h2
  exact h h1

theorem pyLower_ne_empty {s : String} {c : Char} {t : List Char}
    (h : pyLower s = ⟨c :: t⟩) : s ≠ "" := by
  intro he
  subst he
  have hd := congrArg String.data h
  cases hd

/-- C4: key-name normalization.  `None` and the empty string normalize to
`None`; names containing `ctrl` / `shift` / `alt` (in that order,
case-insensitively) normalize to the corresponding modifier; names
containing `win` or `cmd` or equal to `meta` normalize to `Win`; a name
whose lowercase form is `f` followed by digits with value between 1 and
24 normalizes to `F<n>`; the listed special-key and symbol names map to
their listed forms; a single ASCII letter maps to its uppercase form and
any other single character to itself; and any name matching no rule is
uppercased as a whole. -/
theorem c4_normalize_key_name_spec :
    (normalize_key_name none = none ∧ normalize_key_name (some "") = none)
    ∧ (∀ s : String, strContains (pyLower s) "ctrl" = true →
        normalize_key_name (some s) = some "Ctrl")
    ∧ (∀ s : String, strContains (pyLower s) "ctrl" = false →
        strContains (pyLower s) "shift" = true →
        normalize_key_name (some s) = some "Shift")
    ∧ (∀ s : String, strContains (pyLower s) "ctrl" = false →
        strContains (pyLower s) "shift" = false →
        strContains (pyLower s) "alt" = true →
        normalize_key_name (some s) = some "Alt")
    ∧ (∀ s : String, strContains (pyLower s) "ctrl" = false →
        strContains (pyLower s) "shift" = false →
        strContains (pyLower s) "alt" = false →
        (strContains (pyLower s) "win" || strContains (pyLower s) "cmd"
          || (pyLower s == "meta")) = true →
        normalize_key_name (some s) = some "Win")
    ∧ (∀ (s : String) (t : List Char), pyLower s = ⟨'f' :: t⟩ →
        t ≠ [] → t.all Char.isDigit = true →
        1 ≤ digitsToNat t → digitsToNat t ≤ 24 →
        normalize_key_name (some s) = some ("F" ++ toString (digitsToNat t)))
    ∧ (normalize_key_name (some "escape") = some "Esc"
        ∧ normalize_key_name (some "up") = some "↑"
        ∧ normalize_key_name (some "semicolon") = some ";"
        ∧ normalize_key_name (some "enter") = some "Enter"
        ∧ normalize_key_name (some "page up") = some "PgUp"
        ∧ normalize_key_name (some "print screen") = some "PrtSc"
        ∧ normalize_key_name (some "backslash") = some "\\"
        ∧ normalize_key_name (some "numpad plus") = some "+")
    ∧ (∀ c ∈ (List.range 26).map (fun i => Char.ofNat (97 + i)),
        normalize_key_name (some ⟨[c]⟩) = some ⟨[pyCharUpper c]⟩)
    ∧ (∀ c ∈ (List.range 26).map (fun i => Char.ofNat (65 + i)),
        normalize_key_name (some ⟨[c]⟩) = some ⟨[pyCharUpper c]⟩)
    ∧ (∀ c ∈ ("0123456789;:=,-./[]\\\x27\x60*+!@#$%^&_?<>|~" : String).data,
        normalize_key_name (some ⟨[c]⟩) = some ⟨[c]⟩)
    ∧ (∀ s : String, s ≠ "" →
        strContains (pyLower s) "ctrl" = false →
        strContains (pyLower s) "shift" = false →
        strContains (pyLower s) "alt" = false →
        strContains (pyLower s) "win" = false →
        strContains (pyLower s) "cmd" = false →
        (pyLower s == "meta") = false →
        fkey_check (pyLower s) = none →
        dlookup special_keys_map (pyLower s) = none →
        dlookup symbol_map (pyLower s) = none →
        (pyLower s).data.length ≠ 1 →
        normalize_key_name (some s) = some (pyUpper s)) := by
  refine ⟨⟨rfl, rfl⟩, ?_, ?_, ?_, ?_, ?_, by decide, by decide, by decide, by decide, ?_⟩
  · intro s h
    have hs0 : s ≠ "" := by
      intro he
      subst he
      exact absurd h (by decide)
    simp [normalize_key_name, hs0, h]
  · intro s h1 h2
    have hs0 : s ≠ "" := by
      intro he
      subst he
      exact absurd h2 (by decide)
    simp [normalize_key_name, hs0, h1, h2]
  · intro s h1 h2 h3
    have hs0 : s ≠ "" := by
      intro he
      subst he
      exact absurd h3 (by decide)
    simp [normalize_key_name, hs0, h1, h2, h3]
  · intro s h1 h2 h3 h4
    have hs0 : s ≠ "" := by
      intro he
      subst he
      exact absurd h4 (by decide)
    simp only [normalize_key_name, if_neg hs0, h1, h2, h3, h4,
      Bool.false_eq_true, if_false, if_true]
  · intro s t hlow htne hdig hlo hhi
    have hs0 : s ≠ "" := pyLower_ne_empty hlow
    have hctrl : strContains (pyLower s) "ctrl" = false := by
      rw [hlow]
      exact strContains_eq_false_of_not_mem (a := 'c') (by decide)
        (not_mem_fdigit hdig (by decide) (by decide))
    have hshift : strContains (pyLower s) "shift" = false := by
      rw [hlow]
      exact strContains_eq_false_of_not_mem (a := 's') (by decide)
        (not_mem_fdigit hdig (by decide) (by decide))
    have halt : strContains (pyLower s) "alt" = false := by
      rw [hlow]
      exact strContains_eq_false_of_not_mem (a := 'a') (by decide)
        (not_mem_fdigit hdig (by decide) (by decide))
    have hwin : strContains (pyLower s) "win" = false := by
      rw [hlow]
      exact strContains_eq_false_of_not_mem (a := 'w') (by decide)
        (not_mem_fdigit hdig (by decide) (by decide))
    have hcmd : strContains (pyLower s) "cmd" = false := by
      rw [hlow]
      exact strContains_eq_false_of_not_mem (a := 'c') (by decide)
        (not_mem_fdigit hdig (by decide) (by decide))
    have hmeta : (pyLower s == "meta") = false := by
      rw [hlow]
      have hne : (⟨'f' :: t⟩ : String) ≠ "meta" := by
        have : "meta" = (⟨['m', 'e', 't', 'a']⟩ : String) := rfl
        rw [this]
        exact mk_ne_of_head_ne (by decide)
      exact beq_eq_false_iff_ne.mpr hne
    have hfk : fkey_check (pyLower s) = some ("F" ++ toString (digitsToNat t)) := by
      rw [hlow]
      have hlen : t.length > 0 := List.length_pos.mpr htne
      simp [fkey_check, hlen, hdig, hlo, hhi]
    simp only [normalize_key_name, if_neg hs0, hctrl, hshift, halt, hwin, hcmd, hmeta,
      Bool.false_eq_true, if_false, Bool.or_self, Bool.or_false, Bool.false_or, hfk]
  · intro s hs0 h1 h2 h3 h4 h5 h6 h7 h8 h9 h10
    simp only [normalize_key_name, if_neg hs0, h1, h2, h3, h4, h5, h6, h7, h8, h9,
      Bool.false_eq_true, if_false, Bool.or_self, Bool.or_false, Bool.false_or]
    cases hdata : (pyLower s).data with
    | nil => rfl
    | cons c tl =>
        cases tl with
        | nil => exact absurd (by rw [hdata]; rfl) h10
        | cons b tl2 => rfl

/-- C4 witness: the theorem applied at a modifier name and at a function
key with a two-digit number. -/
theorem c4_witness :
    normalize_key_name (some "LEFT CTRL") = some "Ctrl"
    ∧ normalize_key_name (some "f13") = some ("F" ++ toString (digitsToNat ['1', '3']))
    ∧ normalize_key_name (some "num lock") = some (pyUpper "num lock") :=
  ⟨c4_normalize_key_name_spec.2.1 "LEFT CTRL" (by decide),
   c4_normalize_key_name_spec.2.2.2.2.2.1 "f13" ['1', '3'] (by decide) (by decide)
     (by decide) (by decide) (by decide),
   c4_normalize_key_name_spec.2.2.2.2.2.2.2.2.2.2 "num lock" (by decide) (by decide)
     (by decide) (by decide) (by decide) (by decide) (by decide) (by decide)
     (by decide) (by decide) (by decide)⟩
